import Mathlib

/-
Formal model of the MatrixOS application framework
(src/matrixos/app_framework.py).

The scheduler state (`OSContext`) and the per-frame loop body of
`OSContext.run` are embedded as pure Lean functions over an explicit
state record.  Side-effecting calls into applications and into the
display/input devices are recorded in an explicit trace of `Call`
values.  Application-defined hook behaviour (the return value of
`on_event`, the contents of `get_help_text`, and which blocking input
handler attributes an app defines) is abstracted into a `Hooks`
environment; the state effects of the hooks themselves follow the base
class `App` (on_activate sets dirty, on_event sets dirty, render clears
dirty, on_deactivate / on_background_tick are no-ops).

The task bridge module `matrixos/async_tasks.py` is imported by
app_framework.py but is not present in the source tree; the parts of it
that are needed are modelled from the specification and are marked as
such in their doc comments.
-/

namespace MatrixOS

/-- Logical input keys carried by an `InputEvent` (matrixos/input.py is
referenced by the framework; keys compared against by `run` are QUIT,
HELP, UP, DOWN, BACK, HOME; other keys are passed through to apps). -/
inductive Key where
  | QUIT
  | HELP
  | UP
  | DOWN
  | BACK
  | HOME
  | LEFT
  | RIGHT
  | OK
  | raw (c : Char)
deriving DecidableEq, Repr

/-- Modelled from the spec: the outcome of a Task's work function in the
missing `matrixos/async_tasks.py` module — either a normal return value
or a thrown error. -/
inductive WorkOutcome where
  | ok (v : Nat)
  | err (e : String)
deriving DecidableEq, Repr

/-- Modelled from the spec: the Result value `{success: bool, value or
error}` produced by the task bridge when a work function finishes. -/
structure TaskResult where
  success : Bool
  value : Option Nat
  error : Option String
deriving DecidableEq, Repr

/-- Modelled from the spec: wrapping a finished work function's outcome
(normal return or thrown error) into a Result value. -/
def wrap_outcome : WorkOutcome → TaskResult
  | .ok v => ⟨true, some v, none⟩
  | .err e => ⟨false, none, some e⟩

/-- One observable call made by the scheduler: application lifecycle
hooks, blocking input handlers, display operations, and task-completion
callback deliveries.  Apps are identified by `Nat` identifiers. -/
inductive Call where
  | deactivate (a : Nat)
  | activate (a : Nat)
  | update (a : Nat)
  | render (a : Nat)
  | renderHelp
  | bgTick (a : Nat)
  | event (a : Nat) (k : Key)
  | cityInput (a : Nat)
  | keyboardInput (a : Nat)
  | matrixClear
  | matrixShow
  | taskCallback (id : Nat) (r : TaskResult)
deriving DecidableEq, Repr

/-- Application-defined behaviour the scheduler observes: the boolean
returned by an app's `on_event` override, the app's `get_help_text`
list, and which of the blocking-input handler attributes
(`handle_city_input` / `handle_keyboard_input`) the app defines. -/
structure Hooks where
  onEventRet : Nat → Key → Bool
  helpText : Nat → List (String × String)
  hasCityInput : Nat → Bool
  hasKeyboardInput : Nat → Bool

/-- The `OSContext` state (app_framework.py lines 114-129) together with
the per-app fields of `App.__init__` (lines 19-24) kept as total maps
from app identifiers, and the completed-task queue of the task bridge. -/
structure OSState where
  matrixHeight : Nat
  active_app : Option Nat
  apps : List Nat
  launcher : Option Nat
  running : Bool
  attention_queue : List (Nat × Nat)
  showing_help : Bool
  help_scroll : Int
  activeFlag : Nat → Bool
  dirty : Nat → Bool
  needs_keyboard : Nat → Bool
  osSet : Nat → Bool
  completed_tasks : List (Nat × TaskResult)

/-- Initial state: a fresh `OSContext.__init__` plus fresh
`App.__init__` fields for every app identifier (active = False,
dirty = True, needs_keyboard = False, os = None). -/
def init_state (height : Nat) : OSState :=
  { matrixHeight := height
    active_app := none
    apps := []
    launcher := none
    running := true
    attention_queue := []
    showing_help := false
    help_scroll := 0
    activeFlag := fun _ => false
    dirty := fun _ => true
    needs_keyboard := fun _ => false
    osSet := fun _ => false
    completed_tasks := [] }

/-- `register_app` (lines 131-138): sets the app's `os` reference and
appends it to the registry. -/
def register_app (s : OSState) (a : Nat) : OSState :=
  { s with apps := s.apps ++ [a], osSet := fun x => if x = a then true else s.osSet x }

/-- `set_launcher` (lines 140-147): records the launcher and registers it. -/
def set_launcher (s : OSState) (a : Nat) : OSState :=
  register_app { s with launcher := some a } a

/-- `switch_to_app` (lines 149-169): no-op if the app is already active;
otherwise clear the outgoing app's active flag and call its
`on_deactivate`, then set the incoming app as active, set its flag, call
its `on_activate` (which sets its dirty flag), and clear the screen. -/
def switch_to_app (s : OSState) (app : Nat) : OSState × List Call :=
  if s.active_app = some app then (s, [])
  else
    match s.active_app with
    | some old =>
        let s1 := { s with activeFlag := fun x => if x = old then false else s.activeFlag x }
        let s2 := { s1 with active_app := some app
                            activeFlag := fun x => if x = app then true else s1.activeFlag x
                            dirty := fun x => if x = app then true else s1.dirty x }
        (s2, [Call.deactivate old, Call.activate app, Call.matrixClear])
    | none =>
        let s2 := { s with active_app := some app
                           activeFlag := fun x => if x = app then true else s.activeFlag x
                           dirty := fun x => if x = app then true else s.dirty x }
        (s2, [Call.activate app, Call.matrixClear])

/-- The numeric priority of a priority string:
`{'low': 0, 'normal': 1, 'high': 2}.get(priority, 1)` (line 183). -/
def priority_value (p : String) : Nat :=
  if p = "low" then 0 else if p = "normal" then 1 else if p = "high" then 2 else 1

/-- The comparator under which Python's
`sort(key=lambda x: x[0], reverse=True)` stably sorts the attention
queue: descending by numeric priority, ties keeping list order. -/
def qge (x y : Nat × Nat) : Prop := y.1 ≤ x.1

instance : DecidableRel qge := fun x y => Nat.decLe y.1 x.1

instance : IsTotal (Nat × Nat) qge := ⟨fun a b => Nat.le_total b.1 a.1⟩

instance : IsTrans (Nat × Nat) qge := ⟨fun _ _ _ h1 h2 => Nat.le_trans h2 h1⟩

/-- Python's stable sort of the attention queue by priority descending
(line 186).  Python's `list.sort` is stable and `reverse=True` keeps
equal-key entries in list order, so the result is the unique stable
descending sort, here realised by `List.insertionSort` (which places an
earlier element before later elements of equal priority). -/
def sortDesc (l : List (Nat × Nat)) : List (Nat × Nat) :=
  l.insertionSort qge

/-- `request_app_switch` (lines 176-186): append `(priority_value, app)`
and stably re-sort the queue by priority descending. -/
def request_app_switch (s : OSState) (app : Nat) (p : String) : OSState :=
  { s with attention_queue := sortDesc (s.attention_queue ++ [(priority_value p, app)]) }

/-- `App.request_attention` (lines 96-108): forwards to
`request_app_switch` when the app has an `os` reference (i.e. has been
registered), otherwise does nothing. -/
def request_attention (s : OSState) (a : Nat) (p : String) : OSState :=
  if s.osSet a then request_app_switch s a p else s

/-- Marks the active app dirty, if there is one (the pattern
`if self.active_app: self.active_app.dirty = True` used throughout the
input handling of `run`). -/
def markActiveDirty (s : OSState) : OSState :=
  { s with dirty := fun x => if s.active_app = some x then true else s.dirty x }

/-- The number of visible help lines,
`(self.matrix.height - 14 - 16) // 8` (lines 215-218 and line 297);
Python `//` is floor division, so the computation is over `Int`. -/
def visible_lines (height : Nat) : Int :=
  ((height : Int) - 14 - 16).fdiv 8

/-- The help-item list built by `render_help_overlay` (lines 196-213):
an "APP KEYS:" header plus one row per app help entry when the active
app provides help text, followed by the six universal rows (a spacing
row, the "UNIVERSAL:" header, and four key rows).  The argument is
`none` when there is no active app. -/
def help_items (app_help : Option (List (String × String))) : List (String × String × Bool) :=
  (match app_help with
   | some l =>
       if l ≠ [] then
         ("APP KEYS:", "", true) :: l.map (fun kd => ((kd.1.take 4).toUpper, (kd.2.take 10).toUpper, false))
       else []
   | none => []) ++
  [("", "", true), ("UNIVERSAL:", "", true),
   ("ESC", "EXIT APP", false), ("BKSP", "GO BACK", false),
   ("Q", "QUIT OS", false), ("TAB", "THIS HELP", false)]

/-- The help-item list the overlay renders for a given state. -/
def rendered_help_items (hooks : Hooks) (s : OSState) : List (String × String × Bool) :=
  help_items (s.active_app.map hooks.helpText)

/-- The system-level input handling of `run` (lines 275-335).  Returns
the new state, the trace of calls made, and whether the Python
`continue` statement was hit (which skips the rest of the frame). -/
def handle_event (hooks : Hooks) (s : OSState) (ev : Option Key) : OSState × List Call × Bool :=
  match ev with
  | none => (s, [], false)
  | some k =>
    if k = Key.QUIT then
      ({ s with running := false }, [], true)
    else if k = Key.HELP then
      let sh := !s.showing_help
      (markActiveDirty { s with showing_help := sh, help_scroll := if sh then s.help_scroll else 0 },
       [], false)
    else if s.showing_help then
      if k = Key.UP then
        (markActiveDirty { s with help_scroll := max 0 (s.help_scroll - 1) }, [], false)
      else if k = Key.DOWN then
        let app_help_count : Int :=
          match s.active_app with
          | some a => (hooks.helpText a).length
          | none => 0
        let total_items := app_help_count + 6
        let max_scroll := max 0 (total_items - visible_lines s.matrixHeight)
        (markActiveDirty { s with help_scroll := min max_scroll (s.help_scroll + 1) }, [], false)
      else if k = Key.BACK then
        (markActiveDirty { s with showing_help := false, help_scroll := 0 }, [], false)
      else (s, [], false)
    else
      match (if k = Key.HOME then
               match s.launcher with
               | some l => some (switch_to_app s l)
               | none => none
             else some (s, [])) with
      | none => ({ s with running := false }, [], true)
      | some (s1, t1) =>
        match s1.active_app with
        | none =>
          if k = Key.BACK then
            match s1.launcher with
            | some l =>
                let (s2, t2) := switch_to_app s1 l
                (s2, t1 ++ t2, false)
            | none => ({ s1 with running := false }, t1, true)
          else (s1, t1, false)
        | some a =>
          let handled := hooks.onEventRet a k
          let s1 := { s1 with dirty := fun x => if x = a then true else s1.dirty x }
          let t1 := t1 ++ [Call.event a k]
          if handled = false ∧ k = Key.BACK then
            match s1.launcher with
            | some l =>
                let (s2, t2) := switch_to_app s1 l
                (s2, t1 ++ t2, false)
            | none => ({ s1 with running := false }, t1, true)
          else (s1, t1, false)

/-- The attention-request handling of `run` (lines 337-340): if the
queue is non-empty, pop its head and switch to that app. -/
def attention_step (s : OSState) : OSState × List Call :=
  match s.attention_queue with
  | [] => (s, [])
  | (_, app) :: rest => switch_to_app { s with attention_queue := rest } app

/-- The keyboard-request handling of `run` (lines 342-354): if the
active app's `needs_keyboard` flag is set, clear it immediately and run
the app's blocking input handler (`handle_city_input` preferred over
`handle_keyboard_input`) with the matrix and input handler, then mark
the app dirty. -/
def keyboard_step (hooks : Hooks) (s : OSState) : OSState × List Call :=
  match s.active_app with
  | some a =>
    if s.needs_keyboard a then
      let s1 := { s with needs_keyboard := fun x => if x = a then false else s.needs_keyboard x }
      if hooks.hasCityInput a then
        ({ s1 with dirty := fun x => if x = a then true else s1.dirty x }, [Call.cityInput a])
      else if hooks.hasKeyboardInput a then
        ({ s1 with dirty := fun x => if x = a then true else s1.dirty x }, [Call.keyboardInput a])
      else (s1, [])
    else (s, [])
  | none => (s, [])

/-- The update/render step of `run` (lines 356-369): call `on_update` on
the active app; if it is dirty, clear the screen, render either the help
overlay or the app (the app's `render` clears its dirty flag; the help
overlay does not), and show the frame. -/
def update_render_step (s : OSState) : OSState × List Call :=
  match s.active_app with
  | none => (s, [])
  | some a =>
    if s.dirty a then
      if s.showing_help then
        (s, [Call.update a, Call.matrixClear, Call.renderHelp, Call.matrixShow])
      else
        ({ s with dirty := fun x => if x = a then false else s.dirty x },
         [Call.update a, Call.matrixClear, Call.render a, Call.matrixShow])
    else (s, [Call.update a])

/-- The background-tick step of `run` (lines 371-376): when a second has
elapsed (`tickDue`), call `on_background_tick` on every registered app
other than the active one, in registration order. -/
def background_tick_step (s : OSState) (tickDue : Bool) : OSState × List Call :=
  if tickDue then
    (s, (s.apps.filter (fun a => !(decide (s.active_app = some a)))).map Call.bgTick)
  else (s, [])

/-- Modelled from the spec: `async_tasks.process_completed_tasks()`
(line 272; the module is absent from the source tree).  Once per frame
the main loop drains the completed-task queue in order and invokes each
task's completion callback with its Result on the main path. -/
def process_completed_tasks (s : OSState) : OSState × List Call :=
  ({ s with completed_tasks := [] },
   s.completed_tasks.map (fun tr => Call.taskCallback tr.1 tr.2))

/-- Modelled from the spec: a worker finishing a task wraps its outcome
into a Result and appends it to the completed-task queue. -/
def enqueue_completed (s : OSState) (id : Nat) (o : WorkOutcome) : OSState :=
  { s with completed_tasks := s.completed_tasks ++ [(id, wrap_outcome o)] }

/-- The part of one iteration of `run`'s loop up to and including the
keyboard-request handling: task drain, input handling, attention
handling, keyboard handling.  The boolean is true when a Python
`continue` skipped the rest of the iteration. -/
def pre_update (hooks : Hooks) (s : OSState) (ev : Option Key) : OSState × List Call × Bool :=
  let (s1, t1) := process_completed_tasks s
  match handle_event hooks s1 ev with
  | (s2, t2, true) => (s2, t1 ++ t2, true)
  | (s2, t2, false) =>
    let (s3, t3) := attention_step s2
    let (s4, t4) := keyboard_step hooks s3
    (s4, t1 ++ t2 ++ t3 ++ t4, false)

/-- One full iteration of `run`'s while loop (lines 265-382), with the
frame-pacing sleep omitted (it does not change state).  `tickDue` is
whether a second has elapsed since the last background tick. -/
def frame (hooks : Hooks) (s : OSState) (ev : Option Key) (tickDue : Bool) : OSState × List Call :=
  match pre_update hooks s ev with
  | (sp, tp, true) => (sp, tp)
  | (sp, tp, false) =>
    let (s5, t5) := update_render_step sp
    let (s6, t6) := background_tick_step s5 tickDue
    (s6, tp ++ t5 ++ t6)

/-- The `run` loop: iterate `frame` over a schedule of per-frame inputs
(polled event, tick-due flag) while the running flag holds; returns as
soon as the flag is cleared. -/
def run_loop (hooks : Hooks) : OSState → List (Option Key × Bool) → OSState × List Call
  | s, [] => (s, [])
  | s, f :: fs =>
    if s.running then
      let (s1, t1) := frame hooks s f.1 f.2
      let (s2, t2) := run_loop hooks s1 fs
      (s2, t1 ++ t2)
    else (s, [])

/-- The operations by which scheduler states are reached: registration,
launcher installation, explicit switches, attention requests (both
direct and via `App.request_attention`), worker task completions, and
whole frames. -/
inductive Op where
  | register (a : Nat)
  | setLauncher (a : Nat)
  | switchTo (a : Nat)
  | requestSwitch (a : Nat) (p : String)
  | requestAtt (a : Nat) (p : String)
  | taskDone (id : Nat) (o : WorkOutcome)
  | frame (ev : Option Key) (tickDue : Bool)

/-- Apply one reachability operation. -/
def apply_op (hooks : Hooks) (s : OSState) : Op → OSState
  | .register a => register_app s a
  | .setLauncher a => set_launcher s a
  | .switchTo a => (switch_to_app s a).1
  | .requestSwitch a p => request_app_switch s a p
  | .requestAtt a p => request_attention s a p
  | .taskDone id o => enqueue_completed s id o
  | .frame ev tick => (frame hooks s ev tick).1

/-- Apply a sequence of reachability operations from the initial state. -/
def apply_ops (hooks : Hooks) (height : Nat) (ops : List Op) : OSState :=
  ops.foldl (apply_op hooks) (init_state height)

/-- The attention queue resulting from a sequence of
`request_app_switch` calls starting from an empty queue. -/
def requestSeq (reqs : List (Nat × String)) : List (Nat × Nat) :=
  reqs.foldl (fun q r => sortDesc (q ++ [(priority_value r.2, r.1)])) []

/-- The arrival-order list of (priority value, app) pairs of a request
sequence. -/
def arrivals (reqs : List (Nat × String)) : List (Nat × Nat) :=
  reqs.map (fun r => (priority_value r.2, r.1))

theorem sortDesc_sorted (l : List (Nat × Nat)) : (sortDesc l).Pairwise qge :=
  List.sorted_insertionSort qge l

theorem sortDesc_filter (l : List (Nat × Nat)) (v : Nat) :
    (sortDesc l).filter (fun e => e.1 == v) = l.filter (fun e => e.1 == v) := by
  have hall : ∀ e ∈ l.filter (fun e : Nat × Nat => e.1 == v), e.1 = v := by
    intro e he
    simpa using List.of_mem_filter he
  have hpw : (l.filter (fun e : Nat × Nat => e.1 == v)).Pairwise qge := by
    refine List.pairwise_of_forall_mem_list ?_
    intro a ha b hb
    have h1 := hall a ha
    have h2 := hall b hb
    unfold qge
    omega
  have hsub : List.Sublist (l.filter (fun e : Nat × Nat => e.1 == v)) (sortDesc l) :=
    List.sublist_insertionSort hpw (List.filter_sublist l)
  have h2 : List.Sublist (l.filter (fun e : Nat × Nat => e.1 == v))
      ((sortDesc l).filter (fun e => e.1 == v)) := by
    have h3 := hsub.filter (fun e : Nat × Nat => e.1 == v)
    have hself : (l.filter (fun e : Nat × Nat => e.1 == v)).filter
          (fun e : Nat × Nat => e.1 == v)
        = l.filter (fun e : Nat × Nat => e.1 == v) :=
      List.filter_eq_self.mpr (fun a ha => (List.mem_filter.mp ha).2)
    rwa [hself] at h3
  have hlen : ((sortDesc l).filter (fun e : Nat × Nat => e.1 == v)).length
      = (l.filter (fun e : Nat × Nat => e.1 == v)).length := by
    rw [← List.countP_eq_length_filter, ← List.countP_eq_length_filter]
    exact (List.perm_insertionSort qge l).countP_eq _
  exact (h2.eq_of_length hlen.symm).symm

theorem requestSeq_filter_go (v : Nat) (reqs : List (Nat × String)) :
    ∀ q : List (Nat × Nat),
      (reqs.foldl (fun q r => sortDesc (q ++ [(priority_value r.2, r.1)])) q).filter
          (fun e => e.1 == v)
        = (q ++ arrivals reqs).filter (fun e => e.1 == v) := by
  induction reqs with
  | nil => intro q; simp [arrivals]
  | cons r rs ih =>
      intro q
      rw [List.foldl_cons, ih]
      simp only [List.filter_append, sortDesc_filter]
      simp only [arrivals, List.map_cons, List.filter_cons]
      split <;> simp

theorem requestSeq_filter (reqs : List (Nat × String)) (v : Nat) :
    (requestSeq reqs).filter (fun e => e.1 == v)
      = (arrivals reqs).filter (fun e => e.1 == v) := by
  have h := requestSeq_filter_go v reqs []
  simpa [requestSeq] using h

theorem requestSeq_sorted_go (reqs : List (Nat × String)) :
    ∀ q : List (Nat × Nat), q.Pairwise qge →
      (reqs.foldl (fun q r => sortDesc (q ++ [(priority_value r.2, r.1)])) q).Pairwise qge := by
  induction reqs with
  | nil => intro q hq; simpa using hq
  | cons r rs ih =>
      intro q _
      rw [List.foldl_cons]
      exact ih _ (sortDesc_sorted _)

theorem requestSeq_sorted (reqs : List (Nat × String)) : (requestSeq reqs).Pairwise qge :=
  requestSeq_sorted_go reqs [] (List.Pairwise.nil)

theorem switch_to_app_queue (s : OSState) (a : Nat) :
    ((switch_to_app s a).1).attention_queue = s.attention_queue := by
  unfold switch_to_app
  split
  · rfl
  · split <;> rfl

/-- Claim C1: starting from an empty attention queue, any sequence of
`request_app_switch` calls leaves the queue sorted descending by
priority, so its head has maximal priority; entries of equal priority
appear in arrival order (first requested, first served); and every
scheduler iteration whose queue is non-empty pops exactly the head,
performs exactly the one switch to that app, and leaves the remaining
requests queued. -/
theorem attention_queue_correct (reqs : List (Nat × String)) :
    (requestSeq reqs).Pairwise qge
    ∧ (∀ h t, requestSeq reqs = h :: t → ∀ e ∈ requestSeq reqs, e.1 ≤ h.1)
    ∧ (∀ v, (requestSeq reqs).filter (fun e => e.1 == v)
          = (arrivals reqs).filter (fun e => e.1 == v))
    ∧ (∀ s v app rest, s.attention_queue = (v, app) :: rest →
        attention_step s = switch_to_app { s with attention_queue := rest } app
        ∧ ((attention_step s).1).attention_queue = rest) := by
  refine ⟨requestSeq_sorted reqs, ?_, requestSeq_filter reqs, ?_⟩
  · intro h t hht e he
    rw [hht] at he
    rcases List.mem_cons.mp he with rfl | he2
    · exact Nat.le_refl _
    · have hp := requestSeq_sorted reqs
      rw [hht] at hp
      exact (List.pairwise_cons.mp hp).1 e he2
  · intro s v app rest hq
    have h1 : attention_step s = switch_to_app { s with attention_queue := rest } app := by
      unfold attention_step
      rw [hq]
    exact ⟨h1, by rw [h1, switch_to_app_queue]⟩

/-- A concrete scheduler state used to witness C1's pop behaviour. -/
def wit1_state : OSState :=
  { init_state 64 with active_app := some 5, attention_queue := [(2, 11), (1, 10)] }

/-- Witness for C1: three concrete requests (normal, high, normal) give
the queue high-first with equal priorities in arrival order, everything
in the queue is below the head's priority, and the attention step pops
the head leaving the rest queued. -/
theorem attention_queue_correct_witness :
    (requestSeq [(10, "normal"), (11, "high"), (12, "normal")] = [(2, 11), (1, 10), (1, 12)])
    ∧ (∀ e ∈ requestSeq [(10, "normal"), (11, "high"), (12, "normal")], e.1 ≤ 2)
    ∧ ((attention_step wit1_state).1).attention_queue = [(1, 10)] := by
  refine ⟨by decide, ?_, ?_⟩
  · exact (attention_queue_correct [(10, "normal"), (11, "high"), (12, "normal")]).2.1
      (2, 11) [(1, 10), (1, 12)] (by decide)
  · exact ((attention_queue_correct []).2.2.2 wit1_state 2 11 [(1, 10)] rfl).2

/-- Claim C10: calling `switch_to_app` with the already-active app is a
complete no-op: no lifecycle hooks run, the screen is not cleared, and
the whole scheduler and application state is returned unchanged. -/
theorem switch_to_app_self_noop (s : OSState) (a : Nat) (h : s.active_app = some a) :
    switch_to_app s a = (s, []) := by
  simp [switch_to_app, h]

/-- A concrete scheduler state with app 3 registered and active. -/
def wit10_state : OSState :=
  { init_state 64 with
    active_app := some 3
    apps := [3]
    activeFlag := fun x => x == 3
    osSet := fun x => x == 3 }

/-- Witness for C10 at a concrete state. -/
theorem switch_to_app_self_noop_witness :
    switch_to_app wit10_state 3 = (wit10_state, []) :=
  switch_to_app_self_noop wit10_state 3 rfl

/-- A concrete scheduler state with app 1 registered and active. -/
def wit3_state : OSState :=
  { init_state 64 with
    active_app := some 1
    apps := [1]
    activeFlag := fun x => x == 1
    osSet := fun x => x == 1 }

/-- Counterexample to C3 as stated: when the currently-active app calls
`request_attention` (which forwards to `request_app_switch`), the
attention queue afterwards contains an entry for the active app — the
code has no guard excluding the active app from the queue. -/
theorem active_app_enters_attention_queue :
    wit3_state.active_app = some 1
    ∧ (2, 1) ∈ (request_attention wit3_state 1 "high").attention_queue := by
  exact ⟨rfl, by decide⟩

/-- Claim C3 amended: `request_app_switch` enqueues unconditionally, so
the attention queue can contain the currently-active app; however, when
such an entry reaches the head, popping it performs a no-op switch: the
resulting state differs from the old one only by the removed entry, and
no lifecycle calls are made. -/
theorem request_app_switch_active_benign (s : OSState) (a : Nat) (p : String) :
    (priority_value p, a) ∈ (request_app_switch s a p).attention_queue
    ∧ (∀ v rest, s.active_app = some a → s.attention_queue = (v, a) :: rest →
        attention_step s = ({ s with attention_queue := rest }, [])) := by
  constructor
  · unfold request_app_switch sortDesc
    simp [List.mem_insertionSort]
  · intro v rest hact hq
    unfold attention_step
    rw [hq]
    simp [switch_to_app, hact]

/-- Witness for the amended C3 at a concrete state. -/
theorem request_app_switch_active_benign_witness :
    (2, 1) ∈ (request_app_switch wit3_state 1 "high").attention_queue
    ∧ attention_step { wit3_state with attention_queue := [(2, 1)] }
        = ({ wit3_state with attention_queue := [] }, []) := by
  constructor
  · exact (request_app_switch_active_benign wit3_state 1 "high").1
  · exact (request_app_switch_active_benign
      { wit3_state with attention_queue := [(2, 1)] } 1 "high").2 2 [] rfl rfl

theorem help_scroll_keeps_overlay (hooks : Hooks) (t : OSState) (k : Key)
    (hh : t.showing_help = true) (hk : k = Key.UP ∨ k = Key.DOWN) :
    (handle_event hooks t (some k)).1.showing_help = true := by
  rcases hk with rfl | rfl <;> simp [handle_event, markActiveDirty, hh]

theorem help_scroll_foldl_keeps_overlay (hooks : Hooks) (ks : List Key) :
    ∀ t : OSState, t.showing_help = true → (∀ k ∈ ks, k = Key.UP ∨ k = Key.DOWN) →
      (ks.foldl (fun t k => (handle_event hooks t (some k)).1) t).showing_help = true := by
  induction ks with
  | nil => intro t ht _; simpa using ht
  | cons k ks ih =>
      intro t ht hks
      rw [List.foldl_cons]
      exact ih _ (help_scroll_keeps_overlay hooks t k ht (hks k (List.mem_cons_self k ks)))
        (fun k2 hk2 => hks k2 (List.mem_cons_of_mem k hk2))

theorem help_close_resets (hooks : Hooks) (t : OSState) (hh : t.showing_help = true) (k : Key)
    (hk : k = Key.HELP ∨ k = Key.BACK) :
    (handle_event hooks t (some k)).1.showing_help = false
    ∧ (handle_event hooks t (some k)).1.help_scroll = 0 := by
  rcases hk with rfl | rfl
  · constructor <;> simp [handle_event, markActiveDirty, hh]
  · constructor <;> simp [handle_event, markActiveDirty, hh]

/-- Claim C4: from any state in help-overlay mode — in particular after
any sequence of UP/DOWN scroll events — pressing the help-toggle key or
the back key returns the mode to normal with help scroll offset 0, so
toggle-open, scroll arbitrarily, toggle-close ends with
(showing_help, help_scroll) = (false, 0). -/
theorem help_toggle_idempotent (hooks : Hooks) (s : OSState) (ks : List Key)
    (hnorm : s.showing_help = false)
    (hks : ∀ k ∈ ks, k = Key.UP ∨ k = Key.DOWN) :
    ((handle_event hooks s (some Key.HELP)).1.showing_help = true)
    ∧ (∀ t : OSState, t.showing_help = true → ∀ k, k = Key.HELP ∨ k = Key.BACK →
        (handle_event hooks t (some k)).1.showing_help = false
        ∧ (handle_event hooks t (some k)).1.help_scroll = 0)
    ∧ ((((ks.foldl (fun t k => (handle_event hooks t (some k)).1)
            (handle_event hooks s (some Key.HELP)).1)) |>
          (fun s2 => (handle_event hooks s2 (some Key.HELP)).1)) |>
        (fun s3 => s3.showing_help = false ∧ s3.help_scroll = 0)) := by
  have hopen : (handle_event hooks s (some Key.HELP)).1.showing_help = true := by
    simp [handle_event, markActiveDirty, hnorm]
  refine ⟨hopen, fun t ht k hk => help_close_resets hooks t ht k hk, ?_⟩
  exact help_close_resets hooks _
    (help_scroll_foldl_keeps_overlay hooks ks _ hopen hks) Key.HELP (Or.inl rfl)

/-- Hooks used in the help-overlay witnesses: the active app provides a
single help entry. -/
def wit4_hooks : Hooks :=
  { onEventRet := fun _ _ => false
    helpText := fun _ => [("R", "Refresh")]
    hasCityInput := fun _ => false
    hasKeyboardInput := fun _ => false }

/-- A concrete normal-mode state with app 1 active. -/
def wit4_state : OSState :=
  { init_state 64 with
    active_app := some 1
    apps := [1]
    activeFlag := fun x => x == 1
    osSet := fun x => x == 1 }

/-- Witness for C4: open help, scroll down twice and up once, close
help; mode is back to normal with scroll offset 0. -/
theorem help_toggle_idempotent_witness :
    (((([Key.DOWN, Key.DOWN, Key.UP].foldl
          (fun t k => (handle_event wit4_hooks t (some k)).1)
          (handle_event wit4_hooks wit4_state (some Key.HELP)).1)) |>
        (fun s2 => (handle_event wit4_hooks s2 (some Key.HELP)).1)) |>
      (fun s3 => s3.showing_help = false ∧ s3.help_scroll = 0)) :=
  (help_toggle_idempotent wit4_hooks wit4_state [Key.DOWN, Key.DOWN, Key.UP]
    rfl (by decide)).2.2

/-- A concrete help-overlay state at scroll offset 3 with app 1 active
(one app help entry, display height 64). -/
def wit5_state : OSState :=
  { init_state 64 with
    active_app := some 1
    apps := [1]
    activeFlag := fun x => x == 1
    osSet := fun x => x == 1
    showing_help := true
    help_scroll := 3 }

/-- Claim C5 (code bug evaluation): with one app help entry and display
height 64, the overlay renders 8 items and 4 lines are visible, so the
claimed clamp ceiling max(0, itemCount - visibleLines) is 4; but the
DOWN handler computes its ceiling without the "APP KEYS:" header row and
clamps at 3: pressing DOWN at offset 3 leaves the offset at 3, while the
render's end index at offset 3 is min(3+4, 8) = 7 < 8, i.e. the last
item stays hidden and the down-scroll indicator keeps showing.  (UP at
offset 0 does clamp at 0 as claimed.) -/
theorem help_scroll_clamp_mismatch :
    ((handle_event wit4_hooks wit5_state (some Key.DOWN)).1.help_scroll = 3)
    ∧ ((rendered_help_items wit4_hooks wit5_state).length = 8)
    ∧ (visible_lines 64 = 4)
    ∧ (max 0 ((8 : Int) - visible_lines 64) = 4)
    ∧ (min ((3 : Int) + visible_lines 64) 8 = 7)
    ∧ ((handle_event wit4_hooks
          { wit5_state with help_scroll := 0 } (some Key.UP)).1.help_scroll = 0) := by
  refine ⟨by decide, by decide, by decide, by decide, by decide, by decide⟩

theorem switch_to_app_active (s : OSState) (a : Nat) :
    ((switch_to_app s a).1).active_app = some a := by
  by_cases h : s.active_app = some a
  · simp [switch_to_app, h]
  · cases hsa : s.active_app with
    | none => simp [switch_to_app, h, hsa]
    | some old =>
        have hne : ¬ old = a := fun heq => h (by rw [hsa, heq])
        simp [switch_to_app, h, hsa, hne]

theorem home_with_launcher (hooks : Hooks) (s : OSState) (l : Nat)
    (hnorm : s.showing_help = false) (hl : s.launcher = some l) :
    (handle_event hooks s (some Key.HOME)).1.active_app = some l
    ∧ (handle_event hooks s (some Key.HOME)).2.2 = false := by
  have hact := switch_to_app_active s l
  rcases hsw : switch_to_app s l with ⟨s1, t1⟩
  rw [hsw] at hact
  have hact1 : s1.active_app = some l := hact
  unfold handle_event
  simp [hnorm, hl, hsw, hact1]

theorem home_no_launcher (hooks : Hooks) (s : OSState)
    (hnorm : s.showing_help = false) (hl : s.launcher = none) :
    handle_event hooks s (some Key.HOME) = ({ s with running := false }, [], true) := by
  unfold handle_event
  simp [hnorm, hl]

theorem run_loop_halts (hooks : Hooks) (s : OSState) (h : s.running = false) :
    ∀ fs, run_loop hooks s fs = (s, []) := by
  intro fs
  cases fs with
  | nil => rfl
  | cons f fs => simp [run_loop, h]

/-- Claim C6: in normal mode, a HOME key — or a BACK key that the active
app's on_event does not handle — switches the active app to the
registered launcher within the input-handling step of the frame; with no
launcher registered it instead clears the running flag (hitting the
loop's `continue`), after which the run loop returns immediately. -/
theorem home_and_back_routing (hooks : Hooks) (s : OSState)
    (hnorm : s.showing_help = false) :
    (∀ l, s.launcher = some l →
        (handle_event hooks s (some Key.HOME)).1.active_app = some l
        ∧ (handle_event hooks s (some Key.HOME)).2.2 = false)
    ∧ (s.launcher = none →
        handle_event hooks s (some Key.HOME) = ({ s with running := false }, [], true))
    ∧ (∀ a l, s.active_app = some a → hooks.onEventRet a Key.BACK = false →
        s.launcher = some l →
        (handle_event hooks s (some Key.BACK)).1.active_app = some l)
    ∧ (∀ a, s.active_app = some a → hooks.onEventRet a Key.BACK = false →
        s.launcher = none →
        (handle_event hooks s (some Key.BACK)).1.running = false
        ∧ (handle_event hooks s (some Key.BACK)).2.2 = true)
    ∧ (s.launcher = none →
        (frame hooks s (some Key.HOME) false).1.running = false
        ∧ ∀ fs, run_loop hooks (frame hooks s (some Key.HOME) false).1 fs
            = ((frame hooks s (some Key.HOME) false).1, [])) := by
  refine ⟨fun l hl => home_with_launcher hooks s l hnorm hl,
    fun hl => home_no_launcher hooks s hnorm hl, ?_, ?_, ?_⟩
  · intro a l ha hret hl
    unfold handle_event
    simp [hnorm, ha, hret, hl, switch_to_app_active]
  · intro a ha hret hl
    unfold handle_event
    constructor <;> simp [hnorm, ha, hret, hl]
  · intro hl
    have h1 := home_no_launcher hooks { s with completed_tasks := [] } hnorm hl
    have hframe : frame hooks s (some Key.HOME) false
        = ({ s with completed_tasks := [], running := false },
           s.completed_tasks.map (fun tr => Call.taskCallback tr.1 tr.2)) := by
      unfold frame pre_update process_completed_tasks
      simp only [h1, List.append_nil]
    rw [hframe]
    exact ⟨rfl, run_loop_halts hooks _ rfl⟩

/-- A concrete normal-mode state with app 1 active and app 9 the
registered launcher. -/
def wit6_state : OSState :=
  { init_state 64 with
    active_app := some 1
    apps := [1, 9]
    launcher := some 9
    activeFlag := fun x => x == 1
    osSet := fun x => x == 1 || x == 9 }

/-- A concrete normal-mode state with app 1 active and no launcher. -/
def wit6b_state : OSState :=
  { init_state 64 with
    active_app := some 1
    apps := [1]
    activeFlag := fun x => x == 1
    osSet := fun x => x == 1 }

/-- Witness for C6: HOME and unhandled BACK each switch to the launcher;
with no launcher, HOME clears the running flag within the frame and the
run loop returns at once. -/
theorem home_and_back_routing_witness :
    ((handle_event wit4_hooks wit6_state (some Key.HOME)).1.active_app = some 9)
    ∧ ((handle_event wit4_hooks wit6_state (some Key.BACK)).1.active_app = some 9)
    ∧ ((frame wit4_hooks wit6b_state (some Key.HOME) false).1.running = false)
    ∧ (run_loop wit4_hooks (frame wit4_hooks wit6b_state (some Key.HOME) false).1
          [(none, false)]
        = ((frame wit4_hooks wit6b_state (some Key.HOME) false).1, [])) :=
  ⟨((home_and_back_routing wit4_hooks wit6_state rfl).1 9 rfl).1,
   (home_and_back_routing wit4_hooks wit6_state rfl).2.2.1 1 9 rfl rfl rfl,
   ((home_and_back_routing wit4_hooks wit6b_state rfl).2.2.2.2 rfl).1,
   ((home_and_back_routing wit4_hooks wit6b_state rfl).2.2.2.2 rfl).2 [(none, false)]⟩

/-- Whether a call is one of the blocking text-input handler calls. -/
def isBlockingCall : Call → Bool
  | .cityInput _ => true
  | .keyboardInput _ => true
  | _ => false

theorem keyboard_step_clears (hooks : Hooks) (s : OSState) :
    ∀ x, (keyboard_step hooks s).1.active_app = some x →
      (keyboard_step hooks s).1.needs_keyboard x = false := by
  intro x
  unfold keyboard_step
  cases hsa : s.active_app with
  | none => intro hx; simp [hsa] at hx
  | some a =>
      by_cases hkb : s.needs_keyboard a
      · by_cases hc : hooks.hasCityInput a
        · intro hx
          simp [hkb, hc, hsa] at hx ⊢
          subst hx
          simp
        · by_cases hk : hooks.hasKeyboardInput a
          · intro hx
            simp [hkb, hc, hk, hsa] at hx ⊢
            subst hx
            simp
          · intro hx
            simp [hkb, hc, hk, hsa] at hx ⊢
            subst hx
            simp
      · intro hx
        simp [hkb, hsa] at hx ⊢
        subst hx
        simpa using hkb

theorem update_render_no_blocking (s : OSState) :
    ∀ c ∈ (update_render_step s).2, isBlockingCall c = false := by
  intro c hc
  unfold update_render_step at hc
  cases hsa : s.active_app with
  | none => rw [hsa] at hc; simp at hc
  | some a =>
      rw [hsa] at hc
      by_cases hd : s.dirty a
      · by_cases hh : s.showing_help
        · simp [hd, hh] at hc
          rcases hc with rfl | rfl | rfl | rfl <;> rfl
        · simp [hd, hh] at hc
          rcases hc with rfl | rfl | rfl | rfl <;> rfl
      · simp [hd] at hc
        subst hc
        rfl

theorem background_tick_no_blocking (s : OSState) (tick : Bool) :
    ∀ c ∈ (background_tick_step s tick).2, isBlockingCall c = false := by
  intro c hc
  unfold background_tick_step at hc
  split at hc
  · simp [List.mem_map] at hc
    obtain ⟨a, _, rfl⟩ := hc
    rfl
  · simp at hc

theorem frame_after_pre_update (hooks : Hooks) (s : OSState) (ev : Option Key) (tick : Bool)
    (sp : OSState) (tp : List Call) (hp : pre_update hooks s ev = (sp, tp, false)) :
    frame hooks s ev tick
      = ((background_tick_step (update_render_step sp).1 tick).1,
         tp ++ (update_render_step sp).2
            ++ (background_tick_step (update_render_step sp).1 tick).2) := by
  unfold frame
  rw [hp]

theorem pre_update_keyboard_cleared (hooks : Hooks) (s : OSState) (ev : Option Key)
    (sp : OSState) (tp : List Call) (hp : pre_update hooks s ev = (sp, tp, false)) :
    ∀ x, sp.active_app = some x → sp.needs_keyboard x = false := by
  unfold pre_update at hp
  simp only [process_completed_tasks] at hp
  rcases hev : handle_event hooks { s with completed_tasks := [] } ev with ⟨s2, t2, skip⟩
  rw [hev] at hp
  cases skip with
  | true => simp at hp
  | false =>
      have hsp : sp = (keyboard_step hooks (attention_step s2).1).1 := by
        have := congrArg Prod.fst hp
        exact this.symm
      rw [hsp]
      exact keyboard_step_clears hooks (attention_step s2).1

/-- Claim C7: when the active app's needs-keyboard flag is set at the
keyboard-handling step of a frame, the scheduler clears the flag, makes
exactly one call to that app's blocking input handler (which receives
the matrix and the input handler), marks the app dirty, and the capture
mode is over before the frame's update/render part: the state entering
the update/render step has the flag clear for the active app, and the
update/render and background-tick steps make no blocking-input calls. -/
theorem keyboard_capture_correct (hooks : Hooks) (s : OSState) (a : Nat)
    (hact : s.active_app = some a) (hflag : s.needs_keyboard a = true)
    (hh : hooks.hasCityInput a = true ∨ hooks.hasKeyboardInput a = true) :
    ((keyboard_step hooks s).1.needs_keyboard a = false)
    ∧ ((keyboard_step hooks s).1.dirty a = true)
    ∧ ((keyboard_step hooks s).2 = [Call.cityInput a]
        ∨ (keyboard_step hooks s).2 = [Call.keyboardInput a])
    ∧ ((keyboard_step hooks s).1.active_app = some a)
    ∧ (∀ ev tick sp tp, pre_update hooks s ev = (sp, tp, false) →
        frame hooks s ev tick
          = ((background_tick_step (update_render_step sp).1 tick).1,
             tp ++ (update_render_step sp).2
                ++ (background_tick_step (update_render_step sp).1 tick).2)
        ∧ (∀ x, sp.active_app = some x → sp.needs_keyboard x = false)
        ∧ (∀ c ∈ (update_render_step sp).2
              ++ (background_tick_step (update_render_step sp).1 tick).2,
            isBlockingCall c = false)) := by
  have hfour : ((keyboard_step hooks s).1.needs_keyboard a = false)
      ∧ ((keyboard_step hooks s).1.dirty a = true)
      ∧ ((keyboard_step hooks s).2 = [Call.cityInput a]
          ∨ (keyboard_step hooks s).2 = [Call.keyboardInput a])
      ∧ ((keyboard_step hooks s).1.active_app = some a) := by
    by_cases hc : hooks.hasCityInput a
    · refine ⟨?_, ?_, Or.inl ?_, ?_⟩ <;> simp [keyboard_step, hact, hflag, hc]
    · have hk : hooks.hasKeyboardInput a = true := by
        rcases hh with h | h
        · exact absurd h hc
        · exact h
      refine ⟨?_, ?_, Or.inr ?_, ?_⟩ <;> simp [keyboard_step, hact, hflag, hc, hk]
  refine ⟨hfour.1, hfour.2.1, hfour.2.2.1, hfour.2.2.2, ?_⟩
  intro ev tick sp tp hp
  refine ⟨frame_after_pre_update hooks s ev tick sp tp hp,
    pre_update_keyboard_cleared hooks s ev sp tp hp, ?_⟩
  intro c hc
  rcases List.mem_append.mp hc with h | h
  · exact update_render_no_blocking _ c h
  · exact background_tick_no_blocking _ tick c h

/-- Hooks whose apps define the generic blocking keyboard handler. -/
def wit7_hooks : Hooks :=
  { onEventRet := fun _ _ => false
    helpText := fun _ => []
    hasCityInput := fun _ => false
    hasKeyboardInput := fun _ => true }

/-- A concrete state whose active app 1 has requested keyboard input. -/
def wit7_state : OSState :=
  { init_state 64 with
    active_app := some 1
    apps := [1]
    activeFlag := fun x => x == 1
    osSet := fun x => x == 1
    needs_keyboard := fun x => x == 1 }

/-- Witness for C7 at a concrete state: the flag is cleared, the app is
dirty, exactly the generic blocking handler is called, and the state
entering the update/render part of a frame has the flag clear. -/
theorem keyboard_capture_correct_witness :
    ((keyboard_step wit7_hooks wit7_state).1.needs_keyboard 1 = false)
    ∧ ((keyboard_step wit7_hooks wit7_state).1.dirty 1 = true)
    ∧ ((keyboard_step wit7_hooks wit7_state).2 = [Call.cityInput 1]
        ∨ (keyboard_step wit7_hooks wit7_state).2 = [Call.keyboardInput 1])
    ∧ (((pre_update wit7_hooks wit7_state none).1).needs_keyboard 1 = false) := by
  have h := keyboard_capture_correct wit7_hooks wit7_state 1 rfl rfl (Or.inr rfl)
  refine ⟨h.1, h.2.1, h.2.2.1, ?_⟩
  have h5 := h.2.2.2.2 none false (pre_update wit7_hooks wit7_state none).1
      (pre_update wit7_hooks wit7_state none).2.1 rfl
  exact h5.2.1 1 rfl

/-- Claim C8: when the once-per-second background-tick step fires, the
tick calls are exactly one `on_background_tick` per registered app other
than the active one, issued in registration order (the ticked apps form
the registration-order sublist of non-active apps); the active app is
never ticked; and when the step does not fire no tick call is made. -/
theorem background_tick_correct (s : OSState) (hnd : s.apps.Nodup) :
    ((background_tick_step s true).2
        = (s.apps.filter (fun a => !(decide (s.active_app = some a)))).map Call.bgTick)
    ∧ (List.Sublist (s.apps.filter (fun a => !(decide (s.active_app = some a)))) s.apps)
    ∧ (∀ a, s.active_app = some a → Call.bgTick a ∉ (background_tick_step s true).2)
    ∧ (∀ a, a ∈ s.apps → s.active_app ≠ some a →
        ((background_tick_step s true).2.count (Call.bgTick a)) = 1)
    ∧ ((background_tick_step s false).2 = []) := by
  have hinj : Function.Injective Call.bgTick := fun x y h => Call.bgTick.inj h
  refine ⟨by simp [background_tick_step], List.filter_sublist s.apps, ?_, ?_, rfl⟩
  · intro a ha hmem
    simp [background_tick_step, List.mem_map] at hmem
    exact hmem.2 ha
  · intro a ha hne
    have h1 : (background_tick_step s true).2
        = (s.apps.filter (fun a => !(decide (s.active_app = some a)))).map Call.bgTick := by
      simp [background_tick_step]
    rw [h1, List.count_map_of_injective _ Call.bgTick hinj a]
    exact List.count_eq_one_of_mem (hnd.filter _)
      (List.mem_filter.mpr ⟨ha, by simp [hne]⟩)

/-- A concrete state with apps 1, 2, 3 registered and app 2 active. -/
def wit8_state : OSState :=
  { init_state 64 with
    active_app := some 2
    apps := [1, 2, 3]
    activeFlag := fun x => x == 2
    osSet := fun x => x == 1 || x == 2 || x == 3 }

/-- Witness for C8 at a concrete state: apps 1 and 3 are ticked once
each in registration order and the active app 2 is not ticked. -/
theorem background_tick_correct_witness :
    ((background_tick_step wit8_state true).2 = [Call.bgTick 1, Call.bgTick 3])
    ∧ (Call.bgTick 2 ∉ (background_tick_step wit8_state true).2)
    ∧ ((background_tick_step wit8_state true).2.count (Call.bgTick 1) = 1)
    ∧ ((background_tick_step wit8_state true).2.count (Call.bgTick 3) = 1) := by
  have h := background_tick_correct wit8_state (by decide)
  exact ⟨by decide, h.2.2.1 2 rfl, h.2.2.2.1 1 (by decide) (by decide),
    h.2.2.2.1 3 (by decide) (by decide)⟩

/-- The active-flag invariant: an app's active flag is set exactly when
it is the scheduler's active_app reference. -/
def activeInv (s : OSState) : Prop :=
  ∀ a, s.activeFlag a = true ↔ s.active_app = some a

theorem activeInv_congr (s' s : OSState) (hf : s'.activeFlag = s.activeFlag)
    (ha : s'.active_app = s.active_app) (h : activeInv s) : activeInv s' := by
  intro a
  rw [hf, ha]
  exact h a

theorem activeInv_init (height : Nat) : activeInv (init_state height) := by
  intro a
  simp [init_state]

theorem switch_preserves_activeInv (s : OSState) (app : Nat) (h : activeInv s) :
    activeInv (switch_to_app s app).1 := by
  by_cases hcur : s.active_app = some app
  · rw [switch_to_app_self_noop s app hcur]
    exact h
  · cases hsa : s.active_app with
    | none =>
        intro a
        by_cases hax : a = app
        · subst hax
          simp [switch_to_app, hcur, hsa]
        · have hax' : ¬ app = a := fun he => hax he.symm
          have h2 := h a
          rw [hsa] at h2
          simp at h2
          simp [switch_to_app, hcur, hsa, hax, hax', h2]
    | some old =>
        have hne : ¬ old = app := fun heq => hcur (by rw [hsa, heq])
        intro a
        by_cases hax : a = app
        · subst hax
          simp [switch_to_app, hcur, hsa, hne]
        · have hax' : ¬ app = a := fun he => hax he.symm
          by_cases hao : a = old
          · subst hao
            simp [switch_to_app, hcur, hsa, hne, hax, hax']
          · have hao' : ¬ old = a := fun he => hao he.symm
            have h2 := h a
            rw [hsa] at h2
            simp [hao'] at h2
            simp [switch_to_app, hcur, hsa, hne, hax, hax', hao, h2]

theorem handle_event_preserves_activeInv (hooks : Hooks) (s : OSState) (ev : Option Key)
    (h : activeInv s) : activeInv (handle_event hooks s ev).1 := by
  cases ev with
  | none => exact h
  | some k =>
    simp only [handle_event]
    by_cases hq : k = Key.QUIT
    · simp only [if_pos hq]
      exact activeInv_congr _ s rfl rfl h
    · rw [if_neg hq]
      by_cases hhk : k = Key.HELP
      · rw [if_pos hhk]
        exact activeInv_congr _ s rfl rfl h
      · rw [if_neg hhk]
        by_cases hsh : s.showing_help
        · rw [if_pos hsh]
          by_cases hup : k = Key.UP
          · rw [if_pos hup]
            exact activeInv_congr _ s rfl rfl h
          · rw [if_neg hup]
            by_cases hdn : k = Key.DOWN
            · rw [if_pos hdn]
              exact activeInv_congr _ s rfl rfl h
            · rw [if_neg hdn]
              by_cases hbk : k = Key.BACK
              · rw [if_pos hbk]
                exact activeInv_congr _ s rfl rfl h
              · rw [if_neg hbk]
                exact h
        · rw [if_neg hsh]
          by_cases hk : k = Key.HOME
          · subst hk
            cases hl : s.launcher with
            | some l =>
                simp only [hl, if_pos rfl]
                have h1 := switch_preserves_activeInv s l h
                cases hact : ((switch_to_app s l).1).active_app with
                | none => simp [hact]; exact h1
                | some a =>
                    simp [hact]
                    exact activeInv_congr _ (switch_to_app s l).1 rfl hact.symm h1
            | none =>
                simp only [hl, if_pos rfl]
                exact activeInv_congr _ s rfl rfl h
          · simp only [if_neg hk]
            cases hact : s.active_app with
            | none =>
                simp only [hact]
                by_cases hbk : k = Key.BACK
                · simp only [if_pos hbk]
                  cases hl : s.launcher with
                  | some l =>
                      simp [hl]
                      exact switch_preserves_activeInv s l h
                  | none =>
                      simp [hl]
                      exact activeInv_congr _ s rfl hact.symm h
                · simp only [if_neg hbk]
                  exact h
            | some a =>
              simp only [hact]
              by_cases hcond : hooks.onEventRet a k = false ∧ k = Key.BACK
              · simp only [if_pos hcond]
                cases hl : s.launcher with
                | some l =>
                    simp [hl]
                    exact switch_preserves_activeInv _ l
                      (activeInv_congr _ s rfl (by simp [hact]) h)
                | none =>
                    simp [hl]
                    exact activeInv_congr _ s rfl (by simp [hact]) h
              · simp only [if_neg hcond]
                exact activeInv_congr _ s rfl (by simp [hact]) h

theorem attention_preserves_activeInv (s : OSState) (h : activeInv s) :
    activeInv (attention_step s).1 := by
  unfold attention_step
  cases hq : s.attention_queue with
  | nil => exact h
  | cons e rest =>
      obtain ⟨v, app⟩ := e
      exact switch_preserves_activeInv _ app (activeInv_congr _ s rfl rfl h)

theorem keyboard_preserves_activeInv (hooks : Hooks) (s : OSState) (h : activeInv s) :
    activeInv (keyboard_step hooks s).1 := by
  unfold keyboard_step
  cases hsa : s.active_app with
  | none => exact h
  | some a =>
      by_cases hkb : s.needs_keyboard a
      · by_cases hc : hooks.hasCityInput a
        · simp [hkb, hc]
          exact activeInv_congr _ s rfl hsa.symm h
        · by_cases hk2 : hooks.hasKeyboardInput a
          · simp [hkb, hc, hk2]
            exact activeInv_congr _ s rfl hsa.symm h
          · simp [hkb, hc, hk2]
            exact activeInv_congr _ s rfl hsa.symm h
      · simp [hkb]
        exact h

theorem update_render_preserves_activeInv (s : OSState) (h : activeInv s) :
    activeInv (update_render_step s).1 := by
  unfold update_render_step
  cases hsa : s.active_app with
  | none => exact h
  | some a =>
      by_cases hd : s.dirty a
      · by_cases hh : s.showing_help
        · simp [hd, hh]
          exact h
        · simp [hd, hh]
          exact activeInv_congr _ s rfl hsa.symm h
      · simp [hd]
        exact h

theorem background_tick_state (s : OSState) (tick : Bool) :
    (background_tick_step s tick).1 = s := by
  unfold background_tick_step
  split <;> rfl

theorem frame_preserves_activeInv (hooks : Hooks) (s : OSState) (ev : Option Key) (tick : Bool)
    (h : activeInv s) : activeInv (frame hooks s ev tick).1 := by
  unfold frame pre_update
  simp only [process_completed_tasks]
  rcases hev : handle_event hooks { s with completed_tasks := [] } ev with ⟨s2, t2, skip⟩
  have h2 : activeInv s2 := by
    have hh := handle_event_preserves_activeInv hooks { s with completed_tasks := [] } ev
      (activeInv_congr _ s rfl rfl h)
    rwa [hev] at hh
  cases skip with
  | true =>
      simp only [hev]
      exact h2
  | false =>
      simp only [hev]
      rcases hat : attention_step s2 with ⟨s3, t3⟩
      have h3 : activeInv s3 := by
        have hh := attention_preserves_activeInv s2 h2
        rwa [hat] at hh
      simp only [hat]
      rcases hkb : keyboard_step hooks s3 with ⟨s4, t4⟩
      have h4 : activeInv s4 := by
        have hh := keyboard_preserves_activeInv hooks s3 h3
        rwa [hkb] at hh
      simp only [hkb]
      rcases hur : update_render_step s4 with ⟨s5, t5⟩
      have h5 : activeInv s5 := by
        have hh := update_render_preserves_activeInv s4 h4
        rwa [hur] at hh
      simp only [hur]
      rcases hbg : background_tick_step s5 tick with ⟨s6, t6⟩
      have h6 : activeInv s6 := by
        have hh : (background_tick_step s5 tick).1 = s5 := background_tick_state s5 tick
        rw [hbg] at hh
        rw [show s6 = s5 from hh]
        exact h5
      simp only [hbg]
      exact h6

theorem apply_op_preserves_activeInv (hooks : Hooks) (s : OSState) (op : Op)
    (h : activeInv s) : activeInv (apply_op hooks s op) := by
  cases op with
  | register a => exact activeInv_congr _ s rfl rfl h
  | setLauncher a => exact activeInv_congr _ s rfl rfl h
  | switchTo a => exact switch_preserves_activeInv s a h
  | requestSwitch a p => exact activeInv_congr _ s rfl rfl h
  | requestAtt a p =>
      show activeInv (request_attention s a p)
      unfold request_attention
      split
      · exact activeInv_congr _ s rfl rfl h
      · exact h
  | taskDone id o => exact activeInv_congr _ s rfl rfl h
  | frame ev tick => exact frame_preserves_activeInv hooks s ev tick h

theorem apply_ops_activeInv (hooks : Hooks) (height : Nat) (ops : List Op) :
    activeInv (apply_ops hooks height ops) := by
  unfold apply_ops
  have hgen : ∀ (l : List Op) (t : OSState), activeInv t →
      activeInv (l.foldl (apply_op hooks) t) := by
    intro l
    induction l with
    | nil => intro t ht; exact ht
    | cons op l ih =>
        intro t ht
        rw [List.foldl_cons]
        exact ih _ (apply_op_preserves_activeInv hooks t op ht)
  exact hgen ops _ (activeInv_init height)

/-- Claim C9: in every state reachable from the initial one by
registrations, launcher installation, explicit switches, attention
requests, worker task completions and whole frames, an app's active
flag is set exactly when it is the scheduler's active_app reference, so
at most one app has its flag set; and a proper switch's trace clears
the outgoing app (on_deactivate) before activating the incoming app
(on_activate) and clearing the screen. -/
theorem active_flag_invariant (hooks : Hooks) (height : Nat) (ops : List Op) :
    (∀ a, (apply_ops hooks height ops).activeFlag a = true
        ↔ (apply_ops hooks height ops).active_app = some a)
    ∧ (∀ a b, (apply_ops hooks height ops).activeFlag a = true →
        (apply_ops hooks height ops).activeFlag b = true → a = b)
    ∧ (∀ t old app, t.active_app = some old → old ≠ app →
        (switch_to_app t app).2
          = [Call.deactivate old, Call.activate app, Call.matrixClear]) := by
  have hinv := apply_ops_activeInv hooks height ops
  refine ⟨hinv, ?_, ?_⟩
  · intro a b ha hb
    have h1 := (hinv a).mp ha
    have h2 := (hinv b).mp hb
    rw [h1] at h2
    exact Option.some.inj h2
  · intro t old app hold hne
    have hcur : ¬ t.active_app = some app := by
      rw [hold]
      simp [hne]
    simp [switch_to_app, hcur, hold, hne]

/-- Hooks with all-default app behaviour. -/
def wit9_hooks : Hooks :=
  { onEventRet := fun _ _ => false
    helpText := fun _ => []
    hasCityInput := fun _ => false
    hasKeyboardInput := fun _ => false }

/-- Witness for C9 at a concrete operation sequence: after registering
apps 1 and 2 and switching to 1, app 1's flag is set (it is the active
app), and switching to 2 deactivates 1 before activating 2. -/
theorem active_flag_invariant_witness :
    ((apply_ops wit9_hooks 64 [Op.register 1, Op.register 2, Op.switchTo 1]).activeFlag 1 = true)
    ∧ ((switch_to_app
          (apply_ops wit9_hooks 64 [Op.register 1, Op.register 2, Op.switchTo 1]) 2).2
        = [Call.deactivate 1, Call.activate 2, Call.matrixClear]) := by
  constructor
  · exact ((active_flag_invariant wit9_hooks 64
      [Op.register 1, Op.register 2, Op.switchTo 1]).1 1).mpr rfl
  · exact (active_flag_invariant wit9_hooks 64
      [Op.register 1, Op.register 2, Op.switchTo 1]).2.2
      (apply_ops wit9_hooks 64 [Op.register 1, Op.register 2, Op.switchTo 1]) 1 2 rfl
      (by decide)

/-- Whether a call is a task-completion callback delivery. -/
def isTaskCall : Call → Bool
  | .taskCallback _ _ => true
  | _ => false

theorem switch_no_taskCall (s : OSState) (app : Nat) :
    ∀ c ∈ (switch_to_app s app).2, isTaskCall c = false := by
  intro c hc
  unfold switch_to_app at hc
  split at hc
  · simp at hc
  · split at hc
    · simp at hc
      rcases hc with rfl | rfl | rfl <;> rfl
    · simp at hc
      rcases hc with rfl | rfl <;> rfl

theorem handle_event_no_taskCall (hooks : Hooks) (s : OSState) (ev : Option Key) :
    ∀ c ∈ (handle_event hooks s ev).2.1, isTaskCall c = false := by
  intro c hc
  cases ev with
  | none => simp [handle_event] at hc
  | some k =>
    simp only [handle_event] at hc
    by_cases hq : k = Key.QUIT
    · rw [if_pos hq] at hc
      simp at hc
    · rw [if_neg hq] at hc
      by_cases hhk : k = Key.HELP
      · rw [if_pos hhk] at hc
        simp at hc
      · rw [if_neg hhk] at hc
        by_cases hsh : s.showing_help
        · rw [if_pos hsh] at hc
          by_cases hup : k = Key.UP
          · rw [if_pos hup] at hc
            simp at hc
          · rw [if_neg hup] at hc
            by_cases hdn : k = Key.DOWN
            · rw [if_pos hdn] at hc
              simp at hc
            · rw [if_neg hdn] at hc
              by_cases hbk : k = Key.BACK
              · rw [if_pos hbk] at hc
                simp at hc
              · rw [if_neg hbk] at hc
                simp at hc
        · rw [if_neg hsh] at hc
          by_cases hk : k = Key.HOME
          · subst hk
            cases hl : s.launcher with
            | some l =>
                rcases hsw : switch_to_app s l with ⟨s1, t1⟩
                have ht1 : ∀ c ∈ t1, isTaskCall c = false := by
                  have hh := switch_no_taskCall s l
                  rw [hsw] at hh
                  exact hh
                simp [hl, hsw] at hc
                cases hact : s1.active_app with
                | none =>
                    simp [hact] at hc
                    exact ht1 c hc
                | some a =>
                    simp [hact] at hc
                    rcases hc with hc | rfl
                    · exact ht1 c hc
                    · rfl
            | none =>
                simp [hl] at hc
          · simp [hk] at hc
            cases hact : s.active_app with
            | none =>
                simp [hact] at hc
                by_cases hbk : k = Key.BACK
                · simp [hbk] at hc
                  cases hl : s.launcher with
                  | some l =>
                      simp [hl] at hc
                      exact switch_no_taskCall s l c hc
                  | none => simp [hl] at hc
                · simp [hbk] at hc
            | some a =>
                simp [hact] at hc
                by_cases hbk : k = Key.BACK
                · subst hbk
                  by_cases hret : hooks.onEventRet a Key.BACK = false
                  · simp [hret] at hc
                    cases hl : s.launcher with
                    | some l =>
                        simp [hl] at hc
                        rcases hc with rfl | hc
                        · rfl
                        · exact switch_no_taskCall _ l c hc
                    | none =>
                        simp [hl] at hc
                        subst hc
                        rfl
                  · simp [hret] at hc
                    subst hc
                    rfl
                · simp [hbk] at hc
                  subst hc
                  rfl

theorem attention_no_taskCall (s : OSState) :
    ∀ c ∈ (attention_step s).2, isTaskCall c = false := by
  intro c hc
  unfold attention_step at hc
  cases hq : s.attention_queue with
  | nil => rw [hq] at hc; simp at hc
  | cons e rest =>
      rw [hq] at hc
      obtain ⟨v, app⟩ := e
      exact switch_no_taskCall { s with attention_queue := rest } app c hc

theorem keyboard_no_taskCall (hooks : Hooks) (s : OSState) :
    ∀ c ∈ (keyboard_step hooks s).2, isTaskCall c = false := by
  intro c hc
  unfold keyboard_step at hc
  cases hsa : s.active_app with
  | none => rw [hsa] at hc; simp at hc
  | some a =>
      rw [hsa] at hc
      by_cases hkb : s.needs_keyboard a
      · by_cases hc2 : hooks.hasCityInput a
        · simp [hkb, hc2] at hc
          subst hc
          rfl
        · by_cases hk2 : hooks.hasKeyboardInput a
          · simp [hkb, hc2, hk2] at hc
            subst hc
            rfl
          · simp [hkb, hc2, hk2] at hc
      · simp [hkb] at hc

theorem update_render_no_taskCall (s : OSState) :
    ∀ c ∈ (update_render_step s).2, isTaskCall c = false := by
  intro c hc
  unfold update_render_step at hc
  cases hsa : s.active_app with
  | none => rw [hsa] at hc; simp at hc
  | some a =>
      rw [hsa] at hc
      by_cases hd : s.dirty a
      · by_cases hh : s.showing_help
        · simp [hd, hh] at hc
          rcases hc with rfl | rfl | rfl | rfl <;> rfl
        · simp [hd, hh] at hc
          rcases hc with rfl | rfl | rfl | rfl <;> rfl
      · simp [hd] at hc
        subst hc
        rfl

theorem background_no_taskCall (s : OSState) (tick : Bool) :
    ∀ c ∈ (background_tick_step s tick).2, isTaskCall c = false := by
  intro c hc
  unfold background_tick_step at hc
  split at hc
  · simp [List.mem_map] at hc
    obtain ⟨a, _, rfl⟩ := hc
    rfl
  · simp at hc

theorem switch_completed (s : OSState) (a : Nat) :
    ((switch_to_app s a).1).completed_tasks = s.completed_tasks := by
  unfold switch_to_app
  split
  · rfl
  · split <;> rfl

theorem switch_running (s : OSState) (a : Nat) :
    ((switch_to_app s a).1).running = s.running := by
  unfold switch_to_app
  split
  · rfl
  · split <;> rfl

theorem attention_completed (s : OSState) :
    ((attention_step s).1).completed_tasks = s.completed_tasks := by
  unfold attention_step
  cases hq : s.attention_queue with
  | nil => rfl
  | cons e rest =>
      obtain ⟨v, app⟩ := e
      exact switch_completed _ app

theorem attention_running (s : OSState) :
    ((attention_step s).1).running = s.running := by
  unfold attention_step
  cases hq : s.attention_queue with
  | nil => rfl
  | cons e rest =>
      obtain ⟨v, app⟩ := e
      exact switch_running _ app

theorem keyboard_completed (hooks : Hooks) (s : OSState) :
    ((keyboard_step hooks s).1).completed_tasks = s.completed_tasks := by
  unfold keyboard_step
  cases hsa : s.active_app with
  | none => rfl
  | some a =>
      by_cases hkb : s.needs_keyboard a
      · by_cases hc2 : hooks.hasCityInput a
        · simp [hkb, hc2]
        · by_cases hk2 : hooks.hasKeyboardInput a
          · simp [hkb, hc2, hk2]
          · simp [hkb, hc2, hk2]
      · simp [hkb]

theorem keyboard_running (hooks : Hooks) (s : OSState) :
    ((keyboard_step hooks s).1).running = s.running := by
  unfold keyboard_step
  cases hsa : s.active_app with
  | none => rfl
  | some a =>
      by_cases hkb : s.needs_keyboard a
      · by_cases hc2 : hooks.hasCityInput a
        · simp [hkb, hc2]
        · by_cases hk2 : hooks.hasKeyboardInput a
          · simp [hkb, hc2, hk2]
          · simp [hkb, hc2, hk2]
      · simp [hkb]

theorem update_render_completed (s : OSState) :
    ((update_render_step s).1).completed_tasks = s.completed_tasks := by
  unfold update_render_step
  cases hsa : s.active_app with
  | none => rfl
  | some a =>
      by_cases hd : s.dirty a
      · by_cases hh2 : s.showing_help
        · simp [hd, hh2]
        · simp [hd, hh2]
      · simp [hd]

theorem update_render_running (s : OSState) :
    ((update_render_step s).1).running = s.running := by
  unfold update_render_step
  cases hsa : s.active_app with
  | none => rfl
  | some a =>
      by_cases hd : s.dirty a
      · by_cases hh2 : s.showing_help
        · simp [hd, hh2]
        · simp [hd, hh2]
      · simp [hd]

theorem handle_event_completed (hooks : Hooks) (s : OSState) (ev : Option Key) :
    (handle_event hooks s ev).1.completed_tasks = s.completed_tasks := by
  cases ev with
  | none => rfl
  | some k =>
    simp only [handle_event]
    by_cases hq : k = Key.QUIT
    · rw [if_pos hq]
    · rw [if_neg hq]
      by_cases hhk : k = Key.HELP
      · rw [if_pos hhk]
        rfl
      · rw [if_neg hhk]
        by_cases hsh : s.showing_help
        · rw [if_pos hsh]
          by_cases hup : k = Key.UP
          · rw [if_pos hup]
            rfl
          · rw [if_neg hup]
            by_cases hdn : k = Key.DOWN
            · rw [if_pos hdn]
              rfl
            · rw [if_neg hdn]
              by_cases hbk : k = Key.BACK
              · rw [if_pos hbk]
                rfl
              · rw [if_neg hbk]
        · rw [if_neg hsh]
          by_cases hk : k = Key.HOME
          · subst hk
            cases hl : s.launcher with
            | some l =>
                have hsc := switch_completed s l
                cases hact : ((switch_to_app s l).1).active_app with
                | none => simp [hl, hact, hsc]
                | some a => simp [hl, hact, hsc]
            | none => simp [hl]
          · simp only [if_neg hk]
            cases hact : s.active_app with
            | none =>
                simp only [hact]
                by_cases hbk : k = Key.BACK
                · simp only [if_pos hbk]
                  cases hl : s.launcher with
                  | some l => simp [hl, switch_completed]
                  | none => simp [hl]
                · simp only [if_neg hbk]
            | some a =>
                simp only [hact]
                by_cases hcond : hooks.onEventRet a k = false ∧ k = Key.BACK
                · simp only [if_pos hcond]
                  cases hl : s.launcher with
                  | some l => simp [hl, switch_completed]
                  | none => simp [hl]
                · simp only [if_neg hcond]

theorem frame_completed (hooks : Hooks) (s : OSState) (ev : Option Key) (tick : Bool) :
    (frame hooks s ev tick).1.completed_tasks = [] := by
  unfold frame pre_update
  simp only [process_completed_tasks]
  rcases hev : handle_event hooks { s with completed_tasks := [] } ev with ⟨s2, t2, skip⟩
  have h2 : s2.completed_tasks = [] := by
    have hh := handle_event_completed hooks { s with completed_tasks := [] } ev
    rw [hev] at hh
    exact hh
  cases skip with
  | true =>
      simp only [hev]
      exact h2
  | false =>
      simp only [hev]
      rcases hat : attention_step s2 with ⟨s3, t3⟩
      have h3 : s3.completed_tasks = [] := by
        have hh := attention_completed s2
        rw [hat] at hh
        exact hh.trans h2
      simp only [hat]
      rcases hkb : keyboard_step hooks s3 with ⟨s4, t4⟩
      have h4 : s4.completed_tasks = [] := by
        have hh := keyboard_completed hooks s3
        rw [hkb] at hh
        exact hh.trans h3
      simp only [hkb]
      rcases hur : update_render_step s4 with ⟨s5, t5⟩
      have h5 : s5.completed_tasks = [] := by
        have hh := update_render_completed s4
        rw [hur] at hh
        exact hh.trans h4
      simp only [hur]
      rcases hbg : background_tick_step s5 tick with ⟨s6, t6⟩
      have h6 : s6.completed_tasks = [] := by
        have hh := background_tick_state s5 tick
        rw [hbg] at hh
        have hh2 : s6 = s5 := hh
        rw [hh2]
        exact h5
      simp only [hbg]
      exact h6

theorem frame_none_running (hooks : Hooks) (s : OSState) (tick : Bool) :
    (frame hooks s none tick).1.running = s.running := by
  unfold frame pre_update
  simp only [process_completed_tasks, handle_event]
  rcases hat : attention_step { s with completed_tasks := [] } with ⟨s3, t3⟩
  have h3 : s3.running = s.running := by
    have hh := attention_running { s with completed_tasks := [] }
    rw [hat] at hh
    exact hh
  simp only [hat]
  rcases hkb : keyboard_step hooks s3 with ⟨s4, t4⟩
  have h4 : s4.running = s.running := by
    have hh := keyboard_running hooks s3
    rw [hkb] at hh
    exact hh.trans h3
  simp only [hkb]
  rcases hur : update_render_step s4 with ⟨s5, t5⟩
  have h5 : s5.running = s.running := by
    have hh := update_render_running s4
    rw [hur] at hh
    exact hh.trans h4
  simp only [hur]
  rcases hbg : background_tick_step s5 tick with ⟨s6, t6⟩
  have h6 : s6.running = s.running := by
    have hh := background_tick_state s5 tick
    rw [hbg] at hh
    have hh2 : s6 = s5 := hh
    rw [hh2]
    exact h5
  simp only [hbg]
  exact h6

theorem frame_trace_prefix (hooks : Hooks) (s : OSState) (ev : Option Key) (tick : Bool) :
    ∃ rest, (frame hooks s ev tick).2
        = s.completed_tasks.map (fun tr => Call.taskCallback tr.1 tr.2) ++ rest
      ∧ ∀ c ∈ rest, isTaskCall c = false := by
  unfold frame pre_update
  simp only [process_completed_tasks]
  rcases hev : handle_event hooks { s with completed_tasks := [] } ev with ⟨s2, t2, skip⟩
  have ht2 : ∀ c ∈ t2, isTaskCall c = false := by
    have hh := handle_event_no_taskCall hooks { s with completed_tasks := [] } ev
    rw [hev] at hh
    exact hh
  cases skip with
  | true =>
      refine ⟨t2, ?_, ht2⟩
      simp only [hev]
  | false =>
      rcases hat : attention_step s2 with ⟨s3, t3⟩
      rcases hkb : keyboard_step hooks s3 with ⟨s4, t4⟩
      rcases hur : update_render_step s4 with ⟨s5, t5⟩
      rcases hbg : background_tick_step s5 tick with ⟨s6, t6⟩
      refine ⟨t2 ++ t3 ++ t4 ++ t5 ++ t6, ?_, ?_⟩
      · simp only [hev, hat, hkb, hur, hbg]
        simp [List.append_assoc]
      · intro c hc
        simp only [List.mem_append] at hc
        rcases hc with (((hc | hc) | hc) | hc) | hc
        · exact ht2 c hc
        · have hh := attention_no_taskCall s2
          rw [hat] at hh
          exact hh c hc
        · have hh := keyboard_no_taskCall hooks s3
          rw [hkb] at hh
          exact hh c hc
        · have hh := update_render_no_taskCall s4
          rw [hur] at hh
          exact hh c hc
        · have hh := background_no_taskCall s5 tick
          rw [hbg] at hh
          exact hh c hc

/-- Claim C2 (the Task Bridge is modelled from the spec, the module
`matrixos/async_tasks.py` being absent from the source tree): a work
function that throws yields a Result with success = false carrying the
error (a normal return yields success = true with the value); every
frame drains the completed-task queue exactly once at its start,
delivering each queued result exactly once, in order, as the leading
prefix of the frame's call trace — on the main scheduling path, before
and never interleaved with the frame's on_update/render calls — and
leaves the queue empty, so no result is ever delivered twice; and
deliveries (failed ones included) never stop the scheduler: a frame
with no input event leaves the running flag unchanged. -/
theorem task_bridge_correct (hooks : Hooks) (s : OSState) (ev : Option Key) (tick : Bool) :
    (∀ e, wrap_outcome (WorkOutcome.err e)
        = { success := false, value := none, error := some e })
    ∧ (∀ v, wrap_outcome (WorkOutcome.ok v)
        = { success := true, value := some v, error := none })
    ∧ (∃ rest, (frame hooks s ev tick).2
          = s.completed_tasks.map (fun tr => Call.taskCallback tr.1 tr.2) ++ rest
        ∧ ∀ c ∈ rest, isTaskCall c = false)
    ∧ ((frame hooks s ev tick).1.completed_tasks = [])
    ∧ ((frame hooks s none tick).1.running = s.running) :=
  ⟨fun _ => rfl, fun _ => rfl, frame_trace_prefix hooks s ev tick,
   frame_completed hooks s ev tick, frame_none_running hooks s tick⟩

end MatrixOS
